import Mathlib

/-!
Verification of the deployment-manifest subsystem
(`src/extensions/mod_management/util/activationStore.ts`).

The TypeScript source is shallowly embedded: JSON-level manifest objects
become `ParsedManifest` (fields optional, mirroring `undefined`/`null`),
repaired manifests become `IDeploymentManifest`, promise-based effects
become explicit `Except`-valued functions over a `World` of collaborator
results, and the sequence of observable effects (file reads, dialog
invocations, stats, unlinks, removes, writes) is returned as an event
trace.
-/

deriving instance DecidableEq for Except

namespace Vortex

/-- A JavaScript `Error` as observed by the code: an optional `code`
property (e.g. `"ENOENT"`) and a message. -/
structure JsError where
  code : Option String
  message : String
deriving DecidableEq, Repr

/-- `const CURRENT_VERSION = 1;` -/
def CURRENT_VERSION : Int := 1

/-- A deployed-file record after repair: all three required fields present
(`relPath`, `source`, `time`). -/
structure IDeployedFile where
  relPath : String
  source : String
  time : Int
deriving DecidableEq, Repr

/-- A raw deployed-file record as parsed from JSON: each field may be
`undefined`/`null` (both collapsed to `none`, as the code treats them
identically in its validity checks). -/
structure RawDeployedFile where
  relPath : Option String
  source : Option String
  time : Option Int
deriving DecidableEq, Repr

/-- One entry of a parsed `files` array: either the JSON literal `null`
or a file record. -/
inductive RawFileEntry where
  | nullEntry : RawFileEntry
  | fileEntry : RawDeployedFile → RawFileEntry
deriving DecidableEq, Repr

/-- The `files` field of a parsed manifest: absent (`undefined`), present
but not an array (any non-array JSON value), or an array of entries. -/
inductive RawFiles where
  | absent : RawFiles
  | notArray : RawFiles
  | arr : List RawFileEntry → RawFiles
deriving DecidableEq, Repr

/-- A manifest object as produced by `JSON.parse`: every field may be
missing. -/
structure ParsedManifest where
  version : Option Int
  instance_ : Option String
  deploymentMethod : Option String
  files : RawFiles
deriving DecidableEq, Repr

/-- A repaired deployment manifest (`IDeploymentManifest`): `version` and
`instance` are always present after `repairManifest`, `deploymentMethod`
stays optional, `files` is a genuine list of complete records. -/
structure IDeploymentManifest where
  version : Int
  instance_ : String
  deploymentMethod : Option String
  files : List IDeployedFile
deriving DecidableEq, Repr

/-- `emptyManifest(instance)`. -/
def emptyManifest (instanceId : String) : IDeploymentManifest :=
  { version := CURRENT_VERSION
    instance_ := instanceId
    deploymentMethod := none
    files := [] }

/-- Modelled from the spec: `truthy` (from `util/util`, not under `src/`)
tests JS truthiness; the spec (§4.2) says a falsy/absent `version` is
replaced. For a numeric field, `undefined`/`null`/`0` are falsy. -/
def truthyNum : Option Int → Bool
  | none => false
  | some v => v != 0

/-- Modelled from the spec: JS truthiness for a string field —
`undefined`/`null`/`""` are falsy. -/
def truthyStr : Option String → Bool
  | none => false
  | some s => s != ""

/-- The validity test of the `reduce` callback in `repairManifest`
(lines 46–49): the entry is not `null` and `relPath`, `source`, `time`
are all neither `undefined` nor `null`. Returns the completed record. -/
def validFile : RawFileEntry → Option IDeployedFile
  | .fileEntry { relPath := some r, source := some s, time := some t } =>
      some { relPath := r, source := s, time := t }
  | _ => none

/-- One step of the `reduce` in `repairManifest`: push the file onto the
accumulator when valid, otherwise return the accumulator unchanged. -/
def repairFilesStep (prev : List IDeployedFile) (file : RawFileEntry) :
    List IDeployedFile :=
  match validFile file with
  | some f => prev ++ [f]
  | none => prev

/-- `input.files.reduce((prev, file) => {...}, [])` from `repairManifest`. -/
def repairFiles (l : List RawFileEntry) : List IDeployedFile :=
  l.foldl repairFilesStep []

/-- The `TypeError` raised by JavaScript when `.reduce` is invoked on a
value that is not an array (`undefined`, `null`, number, …). -/
def errReduceTypeError : JsError :=
  { code := none, message := "TypeError: input.files.reduce is not a function" }

/-- `repairManifest(input)`: defaults a falsy `version` to
`CURRENT_VERSION`, a falsy `instance` to `""`, and filters `files`
through the validity check. Accessing `.reduce` of a `files` value that
is not an array throws, so the embedding returns `Except`. -/
def repairManifest (input : ParsedManifest) :
    Except JsError IDeploymentManifest :=
  let version := if truthyNum input.version then input.version.getD CURRENT_VERSION
                 else CURRENT_VERSION
  let inst := if truthyStr input.instance_ then input.instance_.getD ""
              else ""
  match input.files with
  | .arr l =>
      .ok { version := version
            instance_ := inst
            deploymentMethod := input.deploymentMethod
            files := repairFiles l }
  | _ => .error errReduceTypeError

/-- Modelled from the spec: `format_1` (imported from
`manifest_formats/format_1`, not under `src/`) is the registry's single
entry, for version 1, the current baseline; per §4.1/§8 a version-1
manifest passes through unchanged except that the chain must terminate
at the current version, so the entry stamps `version := 1`. -/
def format_1 (input : ParsedManifest) : ParsedManifest :=
  { input with version := some CURRENT_VERSION }

/-- `const formats = { 1: format_1 };` — lookup of an unregistered
version yields `undefined` (`none`). -/
def formats : Int → Option (ParsedManifest → ParsedManifest) :=
  fun v => if v = 1 then some format_1 else none

/-- JS `parsed.version || 1`: an absent (`undefined`/`null`) or `0`
version falls back to `1`. -/
def jsVersionOrOne : Option Int → Int
  | none => 1
  | some v => if v = 0 then 1 else v

/-- JS `<` against a number when the left side may be `undefined`:
`undefined < n` is `false` (NaN comparison). -/
def jsLtOpt : Option Int → Int → Bool
  | none, _ => false
  | some v, c => v < c

/-- The error thrown by line 68 of the source:
`unsupported format upgrade ... -> ...` (an `UnsupportedUpgrade`). -/
def errUnsupportedUpgrade : JsError :=
  { code := none, message := "unsupported format upgrade" }

/-- The `TypeError` raised when `formats[v]` is `undefined` for the
object's version and is then called as a function. -/
def errFormatLookup : JsError :=
  { code := none, message := "TypeError: formats[parsed.version || 1] is not a function" }

/-- Marker for a run of the `while` loop that would not terminate; fuel
is a modelling device, the source loop has no bound. -/
def errNoProgress : JsError :=
  { code := none, message := "upgrade loop did not terminate" }

/-- The `while (lastVersion < CURRENT_VERSION)` loop of `readManifest`
(lines 63–71), parametrised by the format table `fmts` and the target
version `cur` (the source uses the module constants `formats` and
`CURRENT_VERSION`).  Each iteration applies the function registered for
`parsed.version || 1`; if the produced object's version equals the
previous iteration's version while still below `cur`, the loop throws
the unsupported-upgrade error. -/
def upgradeLoop (fmts : Int → Option (ParsedManifest → ParsedManifest))
    (cur : Int) : Nat → Option Int → ParsedManifest →
    Except JsError ParsedManifest
  | 0, lastVersion, parsed =>
      if jsLtOpt lastVersion cur then .error errNoProgress else .ok parsed
  | fuel + 1, lastVersion, parsed =>
      if jsLtOpt lastVersion cur then
        match fmts (jsVersionOrOne parsed.version) with
        | none => .error errFormatLookup
        | some f =>
            let next := f parsed
            if next.version == lastVersion && jsLtOpt next.version cur then
              .error errUnsupportedUpgrade
            else
              upgradeLoop fmts cur fuel next.version next
      else .ok parsed

/-- Raw file content handed to `readManifest`, abstracting the string:
the empty string, a non-empty string that `JSON.parse` rejects, or a
non-empty string parsing to a manifest object. -/
inductive FileData where
  | emptyStr : FileData
  | malformed : FileData
  | json : ParsedManifest → FileData
deriving DecidableEq, Repr

/-- The `SyntaxError` thrown by `JSON.parse` on malformed input. -/
def errSyntax : JsError :=
  { code := none, message := "SyntaxError: unexpected token" }

/-- Fuel handed to the upgrade loop by the embedding; with the concrete
`formats` table the loop finishes (or fails) within two iterations. -/
def manifestFuel : Nat := 1000

/-- `readManifest(data)` (lines 58–76): `''` yields `undefined` (no
manifest); otherwise parse, run the upgrade chain starting from
`lastVersion = 0`, default an absent `files` to `[]`, and repair. -/
def readManifest (data : FileData) :
    Except JsError (Option IDeploymentManifest) :=
  match data with
  | .emptyStr => .ok none
  | .malformed => .error errSyntax
  | .json parsed =>
      match upgradeLoop formats CURRENT_VERSION manifestFuel (some 0) parsed with
      | .error e => .error e
      | .ok upgraded =>
          let filled := if upgraded.files = RawFiles.absent then
                          { upgraded with files := RawFiles.arr [] }
                        else upgraded
          match repairManifest filled with
          | .error e => .error e
          | .ok m => .ok (some m)

/-- The slice of `IDeploymentMethod` the store consults: its id and the
fallback-purge-safety flag. -/
structure IDeploymentMethod where
  id : String
  isFallbackPurgeSafe : Bool
deriving DecidableEq, Repr

/-- The slice of `fs.Stats` used: the modification time, compared as a
number (`stats.mtime.getTime()`). -/
structure Stats where
  mtime : Int
deriving DecidableEq, Repr

/-- The results the external collaborators (filesystem, dialog,
deployment-method registry) deliver to one run: the outcome of
`fs.readFileAsync(tagFile)` with the content abstracted to `FileData`,
the dialog's chosen action (`result.action`), `getActivator` (the
registry lookup, an external collaborator per §6), and per-path results
for `statAsync`, `unlinkAsync`, `removeAsync` and `writeFileAtomic`. -/
structure World where
  readResult : Except JsError FileData
  dialogAction : String
  getActivator : String → Option IDeploymentMethod
  statResult : String → Except JsError Stats
  unlinkResult : String → Except JsError Unit
  removeResult : String → Except JsError Unit
  writeResult : String → Except JsError Unit

/-- Observable effects, in order of occurrence. -/
inductive Event where
  | fsRead : String → Event
  | showDialog : Bool → Event
  | statF : String → Event
  | unlinkF : String → Event
  | removeF : String → Event
  | writeF : String → String → String → List IDeployedFile → Event
  | notifyError : Event
deriving DecidableEq, Repr

/-- `path.join` as used here: parent directory plus one relative
component. -/
def pathJoin (a b : String) : String := a ++ "/" ++ b

/-- `(modType !== undefined) && (modType.length > 0) ? modType + '.' : ''` -/
def typeTagOf : Option String → String
  | none => ""
  | some t => if t.length > 0 then t ++ "." else ""

/-- `path.join(modPath, 'vortex.deployment.' + typeTag + 'json')` -/
def tagFileOf (dir : String) (modType : Option String) : String :=
  pathJoin dir ("vortex.deployment." ++ typeTagOf modType ++ "json")

/-- Error signals of the promise chain: the `UserCanceled` control-flow
condition, or an ordinary error. -/
inductive VErr where
  | userCanceled : VErr
  | err : JsError → VErr
deriving DecidableEq, Repr

/-- The per-file body of the `Promise.map` in `fallbackPurge`
(lines 80–90): stat the joined path; on success delete exactly when the
modification time equals the recorded time; the trailing `.catch`
absorbs `ENOENT` from either the stat or the unlink and re-raises
everything else. -/
def purgeOne (w : World) (basePath : String) (file : IDeployedFile) :
    Except JsError Unit × List Event :=
  let fullPath := pathJoin basePath file.relPath
  match w.statResult fullPath with
  | .error e =>
      (if e.code = some "ENOENT" then .ok () else .error e, [.statF fullPath])
  | .ok stats =>
      if stats.mtime = file.time then
        match w.unlinkResult fullPath with
        | .error e =>
            (if e.code = some "ENOENT" then .ok () else .error e,
             [.statF fullPath, .unlinkF fullPath])
        | .ok _ => (.ok (), [.statF fullPath, .unlinkF fullPath])
      else (.ok (), [.statF fullPath])

/-- Aggregation of `Promise.map`: the map rejects with the first
rejection among the per-file results. -/
def firstErr : List (Except JsError Unit) → Except JsError Unit
  | [] => .ok ()
  | .ok _ :: rest => firstErr rest
  | .error e :: _ => .error e

/-- `fallbackPurge(basePath, files)` (lines 78–93): every file is
processed (`Promise.map` starts all operations; there is no rollback),
and the invocation fails with the first per-file error. -/
def fallbackPurge (w : World) (basePath : String)
    (files : List IDeployedFile) : Except JsError Unit × List Event :=
  (firstErr (files.map fun f => (purgeOne w basePath f).1),
   (files.map fun f => (purgeOne w basePath f).2).flatten)

/-- `queryPurge(api, basePath, files, safe)` (lines 121–143): show the
dialog (safe or destructive text); on `Purge` run the fallback purge,
converting a purge failure into a notification followed by
`UserCanceled`; on anything else reject with `UserCanceled`. -/
def queryPurge (w : World) (basePath : String) (files : List IDeployedFile)
    (safe : Bool) : Except VErr Unit × List Event :=
  if w.dialogAction = "Purge" then
    match fallbackPurge w basePath files with
    | (.ok _, ev) => (.ok (), Event.showDialog safe :: ev)
    | (.error _, ev) =>
        (.error .userCanceled, Event.showDialog safe :: ev ++ [.notifyError])
  else (.error .userCanceled, [Event.showDialog safe])

/-- `saveActivation(modType, instance, gamePath, activation, activatorId)`
(lines 188–208).  `JSON.stringify` of the plain manifest object always
produces text that `JSON.parse` accepts, so the serialization self-check
never fires in the embedding.  An empty file list deletes the manifest
file, with `.catch(() => undefined)` absorbing every delete error; a
non-empty list writes atomically. -/
def saveActivation (w : World) (modType : Option String) (instanceId : String)
    (gamePath : String) (activation : List IDeployedFile)
    (activatorId : String) : Except VErr Unit × List Event :=
  let tagFile := tagFileOf gamePath modType
  if activation.length = 0 then
    match w.removeResult tagFile with
    | _ => (.ok (), [.removeF tagFile])
  else
    match w.writeResult tagFile with
    | .ok _ => (.ok (), [.writeF tagFile instanceId activatorId activation])
    | .error e => (.error (.err e), [.writeF tagFile instanceId activatorId activation])

/-- The wrapping of a non-`ENOENT` load failure (lines 160–162): a fresh
`Error` whose message appends the manifest path to the original
message. -/
def wrapReadError (e : JsError) (tagFile : String) : JsError :=
  { code := none
    message := e.message ++ ".\n*** When you report this, please include the file \""
                 ++ tagFile ++ " ***\"" }

/-- The `safe` computation of `loadActivation` (lines 171–177): start
from `true`; only a recorded deployment method that the registry knows
and that is not fallback-purge-safe flips it to `false`. -/
def safeFlag (w : World) (m : IDeploymentManifest) : Bool :=
  match m.deploymentMethod with
  | none => true
  | some dm =>
      match w.getActivator dm with
      | none => true
      | some previousActivator =>
          if !previousActivator.isFallbackPurgeSafe then false else true

/-- Read stage of `loadActivation` (lines 154–163): the read result fed
through `readManifest`, then the `.catch` that turns `ENOENT` into an
empty manifest and wraps any other error with the manifest path, then
the `undefined` check of the `.then` (line 165). -/
def loadManifestStage (w : World) (tagFile : String) (instanceId : String) :
    Except JsError IDeploymentManifest :=
  let readRes : Except JsError (Option IDeploymentManifest) :=
    match w.readResult with
    | .ok data => readManifest data
    | .error e => .error e
  match readRes with
  | .error e =>
      if e.code = some "ENOENT" then .ok (emptyManifest instanceId)
      else .error (wrapReadError e tagFile)
  | .ok none => .ok (emptyManifest instanceId)
  | .ok (some m) => .ok m

/-- `loadActivation(api, modType, modPath, activator)` (lines 145–186). -/
def loadActivation (w : World) (modType : Option String)
    (modPath : Option String) (activator : IDeploymentMethod)
    (instanceId : String) :
    Except VErr (List IDeployedFile) × List Event :=
  match modPath with
  | none => (.ok [], [])
  | some mp =>
      let tagFile := tagFileOf mp modType
      match loadManifestStage w tagFile instanceId with
      | .error e => (.error (.err e), [.fsRead tagFile])
      | .ok tagObject =>
          if tagObject.instance_ ≠ instanceId ∧ tagObject.files.length > 0 then
            match queryPurge w mp tagObject.files (safeFlag w tagObject) with
            | (.error e, qev) => (.error e, .fsRead tagFile :: qev)
            | (.ok _, qev) =>
                match saveActivation w modType instanceId mp [] activator.id with
                | (.error e, sev) =>
                    (.error e, .fsRead tagFile :: (qev ++ sev))
                | (.ok _, sev) => (.ok [], .fsRead tagFile :: (qev ++ sev))
          else (.ok tagObject.files, [.fsRead tagFile])

/-- The dialog invocations of a trace, each with its safe/destructive
flag, in order. -/
def dialogsOf (tr : List Event) : List Bool :=
  tr.filterMap fun e =>
    match e with
    | .showDialog b => some b
    | _ => none

/-! Concrete data for evaluating the model on closed inputs. -/

def raw0 : ParsedManifest :=
  { version := some 1, instance_ := some "other", deploymentMethod := none
    files := .arr [.fileEntry { relPath := some "f.esp", source := some "modA", time := some 5 }] }

def m0 : IDeploymentManifest :=
  { version := 1, instance_ := "other", deploymentMethod := none
    files := [{ relPath := "f.esp", source := "modA", time := 5 }] }

example : readManifest (.json raw0) = .ok (some m0) := by decide

def act0 : IDeploymentMethod := { id := "hardlink", isFallbackPurgeSafe := true }

def declineWorld : World :=
  { readResult := .ok (.json raw0)
    dialogAction := "Cancel"
    getActivator := fun _ => none
    statResult := fun _ => .error { code := some "ENOENT", message := "no such file" }
    unlinkResult := fun _ => .ok ()
    removeResult := fun _ => .ok ()
    writeResult := fun _ => .ok () }

def purgeWorld : World :=
  { declineWorld with
    dialogAction := "Purge"
    statResult := fun p =>
      if p = "game/f.esp" then .ok { mtime := 5 }
      else .error { code := some "ENOENT", message := "no such file" } }

def enoentWorld : World :=
  { declineWorld with
    readResult := .error { code := some "ENOENT", message := "no such file" } }

def emptyFileWorld : World := { declineWorld with readResult := .ok .emptyStr }

def eaccesErr : JsError := { code := some "EACCES", message := "permission denied" }

def eaccesReadWorld : World := { declineWorld with readResult := .error eaccesErr }

def removeFailWorld : World :=
  { declineWorld with removeResult := fun _ => .error eaccesErr }

/-! Concrete data for the per-file purge dispositions: one file per
scenario — missing, matching time, differing time, stat failure,
unlink failure. -/

def fM5 : IDeployedFile := { relPath := "m", source := "s", time := 1 }

def fEq5 : IDeployedFile := { relPath := "a", source := "s", time := 5 }

def fNe5 : IDeployedFile := { relPath := "b", source := "s", time := 5 }

def fErr5 : IDeployedFile := { relPath := "c", source := "s", time := 1 }

def fUErr5 : IDeployedFile := { relPath := "d", source := "s", time := 7 }

def w5 : World :=
  { declineWorld with
    statResult := fun p =>
      if p = "base/a" then .ok { mtime := 5 }
      else if p = "base/b" then .ok { mtime := 9 }
      else if p = "base/c" then .error eaccesErr
      else if p = "base/d" then .ok { mtime := 7 }
      else .error { code := some "ENOENT", message := "no such file" }
    unlinkResult := fun p =>
      if p = "base/d" then .error eaccesErr else .ok () }

/-! Concrete data for the upgrade-chain stall: a (hypothetical) format
table whose registered function leaves the version unchanged at `0`,
and a parsed object declaring an unregistered version. -/

def stallStep (m : ParsedManifest) : ParsedManifest := { m with version := some 0 }

def stallTable : Int → Option (ParsedManifest → ParsedManifest) :=
  fun _ => some stallStep

def parsedV0 : ParsedManifest :=
  { version := some 0, instance_ := some "x", deploymentMethod := none
    files := .arr [] }

def parsedV5 : ParsedManifest :=
  { version := some 5, instance_ := some "x", deploymentMethod := none
    files := .arr [] }

/-- A `files` array holding both invalid entries (a `null`, a record
with no `relPath`, a record with no `time`) and valid ones. -/
def lC8 : List RawFileEntry :=
  [ .fileEntry { relPath := some "a.esp", source := some "modA", time := some 1 }
  , .nullEntry
  , .fileEntry { relPath := none, source := some "modB", time := some 2 }
  , .fileEntry { relPath := some "b.esp", source := some "modB", time := none }
  , .fileEntry { relPath := some "c.esp", source := some "modC", time := some 3 } ]

def inputC8 : ParsedManifest :=
  { version := some 1, instance_ := some "other", deploymentMethod := none
    files := .arr lC8 }

/-! Helper lemmas. -/

lemma repairFilesStep_eq (acc : List IDeployedFile) (e : RawFileEntry) :
    repairFilesStep acc e = acc ++ (validFile e).toList := by
  unfold repairFilesStep
  cases validFile e <;> simp

lemma repairFiles_foldl (l : List RawFileEntry) :
    ∀ acc, l.foldl repairFilesStep acc = acc ++ l.filterMap validFile := by
  induction l with
  | nil => intro acc; simp
  | cons e t ih =>
      intro acc
      cases hv : validFile e with
      | none =>
          simp [List.foldl_cons, repairFilesStep_eq, hv, ih, List.filterMap_cons]
      | some b =>
          simp [List.foldl_cons, repairFilesStep_eq, hv, ih, List.filterMap_cons,
                List.append_assoc]

lemma repairFiles_eq_filterMap (l : List RawFileEntry) :
    repairFiles l = l.filterMap validFile := by
  simpa [repairFiles] using repairFiles_foldl l []

/-! Claim theorems. -/

/-- C10: `loadActivation` with an undefined deployment path resolves
immediately to an empty file list, with an empty effect trace — no
filesystem read and no confirmation dialog. -/
theorem loadActivation_undefined_path (w : World) (modType : Option String)
    (activator : IDeploymentMethod) (instanceId : String) :
    loadActivation w modType none activator instanceId = (.ok [], []) := rfl

/-- C3 counterexample: `repairManifest` applied to a manifest whose
`files` field is absent does not return a manifest — accessing
`.reduce` of `undefined` throws a `TypeError`, so `repair` is not total
as claimed. -/
theorem repairManifest_fails_on_absent_files :
    repairManifest { version := some 1, instance_ := some "x",
                     deploymentMethod := none, files := .absent } =
      .error errReduceTypeError := by decide

/-- C3 amended: `repair` is total (returns a `DeploymentManifest`,
never fails) for every input manifest whose `files` field is an array;
for an absent or non-array `files` it throws a `TypeError`
(`readManifest` shields the absent case by pre-setting `files` to an
empty array before calling `repair`). -/
theorem repairManifest_total_on_array_files (input : ParsedManifest)
    (l : List RawFileEntry) (h : input.files = .arr l) :
    ∃ m, repairManifest input = .ok m := by
  refine ⟨{ version := if truthyNum input.version then
              input.version.getD CURRENT_VERSION else CURRENT_VERSION
            instance_ := if truthyStr input.instance_ then
              input.instance_.getD "" else ""
            deploymentMethod := input.deploymentMethod
            files := repairFiles l }, ?_⟩
  unfold repairManifest
  rw [h]

/-- Witness for C3 amended, at a concrete manifest with an array
`files`. -/
theorem repairManifest_total_on_array_files_witness :
    ∃ m, repairManifest inputC8 = .ok m :=
  repairManifest_total_on_array_files inputC8 lC8 rfl

/-- C2 counterexample: with an empty file list, a delete failing with
`EACCES` (not a not-found error) is absorbed — `saveActivation` still
succeeds, refuting the claim that non-not-found delete errors are
propagated. -/
theorem saveActivation_absorbs_delete_error :
    saveActivation removeFailWorld none "me" "game" [] "hardlink" =
      (.ok (), [.removeF "game/vortex.deployment.json"]) ∧
    removeFailWorld.removeResult "game/vortex.deployment.json" =
      .error eaccesErr := by
  exact ⟨by decide, by decide⟩

/-- C2 amended: for every call of `saveActivation` with an empty files
list, deletion of the manifest file is attempted and the call succeeds
regardless of the delete's outcome — every delete error, not-found or
otherwise, is treated as success (`.catch(() => undefined)`). -/
theorem saveActivation_empty_deletes_absorbing_errors (w : World)
    (modType : Option String) (instanceId gamePath activatorId : String) :
    saveActivation w modType instanceId gamePath [] activatorId =
      (.ok (), [.removeF (tagFileOf gamePath modType)]) := by
  unfold saveActivation
  simp only [List.length_nil, if_pos]

/-- C8: for every manifest whose `files` array contains at least one
invalid record (a `null`, or a record missing `relPath`, `source`, or
`time`), `repair` succeeds and its `files` output is exactly the input
filtered through the validity check — the invalid records removed and
all valid ones preserved in their original order (`filterMap`). -/
theorem repairManifest_filters_invalid (input : ParsedManifest)
    (l : List RawFileEntry) (harr : input.files = .arr l)
    (hinv : ∃ e ∈ l, validFile e = none) :
    (∃ m, repairManifest input = .ok m) ∧
    (∀ m, repairManifest input = .ok m → m.files = l.filterMap validFile) := by
  constructor
  · exact repairManifest_total_on_array_files input l harr
  · intro m hm
    unfold repairManifest at hm
    rw [harr] at hm
    cases hm
    simpa using repairFiles_eq_filterMap l

/-- Witness for C8 at a concrete manifest holding a `null` entry, a
record without `relPath`, a record without `time`, and two valid
records; the repaired list keeps exactly the two valid records in
order. -/
theorem repairManifest_filters_invalid_witness :
    ∃ m, repairManifest inputC8 = .ok m ∧
      m.files = [{ relPath := "a.esp", source := "modA", time := 1 },
                 { relPath := "c.esp", source := "modC", time := 3 }] := by
  have h := repairManifest_filters_invalid inputC8 lC8 rfl
    ⟨.nullEntry, by decide, rfl⟩
  obtain ⟨⟨m, hm⟩, hall⟩ := h
  refine ⟨m, hm, ?_⟩
  rw [hall m hm]
  decide

/-- C6: in the decode upgrade chain, each iteration applies the function
registered for the object's declared version (`parsed.version || 1`,
defaulting to 1 when absent); an iteration whose output version equals
the previous version while still below the current schema version makes
the loop fail with the unsupported-upgrade error rather than loop, and
a loop failure is propagated by `readManifest` as its own failure. -/
theorem upgradeLoop_stall_errors
    (fmts : Int → Option (ParsedManifest → ParsedManifest)) (cur : Int)
    (fuel : Nat) (lastVersion : Option Int) (parsed : ParsedManifest)
    (f : ParsedManifest → ParsedManifest)
    (hrun : jsLtOpt lastVersion cur = true)
    (hlook : fmts (jsVersionOrOne parsed.version) = some f)
    (hstall : (f parsed).version = lastVersion)
    (hbelow : jsLtOpt (f parsed).version cur = true) :
    upgradeLoop fmts cur (fuel + 1) lastVersion parsed =
      .error errUnsupportedUpgrade
    ∧ jsVersionOrOne none = 1
    ∧ (∀ (p : ParsedManifest) (e : JsError),
        upgradeLoop formats CURRENT_VERSION manifestFuel (some 0) p = .error e →
        readManifest (.json p) = .error e) := by
  refine ⟨?_, rfl, ?_⟩
  · simp only [upgradeLoop, hrun, if_true, hlook, hstall, hbelow,
               beq_self_eq_true, Bool.and_self]
  · intro p e h
    simp only [readManifest, h]

/-- Witness for C6: a format table whose registered step leaves the
version at 0 triggers the unsupported-upgrade error in one iteration;
an unregistered declared version (5) makes decode fail with the lookup
`TypeError` via the propagation conjunct. -/
theorem upgradeLoop_stall_errors_witness :
    upgradeLoop stallTable 1 1 (some 0) parsedV0 = .error errUnsupportedUpgrade
    ∧ readManifest (.json parsedV5) = .error errFormatLookup := by
  have h := upgradeLoop_stall_errors stallTable 1 0 (some 0) parsedV0 stallStep
    (by decide) rfl rfl (by decide)
  exact ⟨h.1, h.2.2 parsedV5 errFormatLookup (by decide)⟩

lemma firstErr_append_error (l1 l2 : List (Except JsError Unit)) (e : JsError)
    (h : ∀ x ∈ l1, x = .ok ()) :
    firstErr (l1 ++ .error e :: l2) = .error e := by
  induction l1 with
  | nil => simp [firstErr]
  | cons x t ih =>
      have hx := h x (by simp)
      subst hx
      simpa [firstErr] using ih fun y hy => h y (by simp [hy])

/-- C5: per-file dispositions of `fallbackPurge` — a missing file
(stat not-found) is ignored; a file whose modification time equals the
recorded time is deleted; a file whose modification time differs is
left untouched (no unlink in its events); a per-file error other than
not-found (from the stat or from the delete) is that file's result and
makes the whole invocation fail with the first such error; and every
file's operations run regardless (no rollback of completed
deletions). -/
theorem fallbackPurge_per_file_disposition (w : World) (base : String)
    (fMiss fEq fNe fSErr fUErr : IDeployedFile) (eM eS eU : JsError)
    (sEq sNe sU : Stats)
    (hm1 : w.statResult (pathJoin base fMiss.relPath) = .error eM)
    (hm2 : eM.code = some "ENOENT")
    (he1 : w.statResult (pathJoin base fEq.relPath) = .ok sEq)
    (he2 : sEq.mtime = fEq.time)
    (he3 : w.unlinkResult (pathJoin base fEq.relPath) = .ok ())
    (hn1 : w.statResult (pathJoin base fNe.relPath) = .ok sNe)
    (hn2 : sNe.mtime ≠ fNe.time)
    (hs1 : w.statResult (pathJoin base fSErr.relPath) = .error eS)
    (hs2 : eS.code ≠ some "ENOENT")
    (hu1 : w.statResult (pathJoin base fUErr.relPath) = .ok sU)
    (hu2 : sU.mtime = fUErr.time)
    (hu3 : w.unlinkResult (pathJoin base fUErr.relPath) = .error eU)
    (hu4 : eU.code ≠ some "ENOENT") :
    purgeOne w base fMiss = (.ok (), [.statF (pathJoin base fMiss.relPath)])
    ∧ purgeOne w base fEq =
        (.ok (), [.statF (pathJoin base fEq.relPath),
                  .unlinkF (pathJoin base fEq.relPath)])
    ∧ purgeOne w base fNe = (.ok (), [.statF (pathJoin base fNe.relPath)])
    ∧ purgeOne w base fSErr = (.error eS, [.statF (pathJoin base fSErr.relPath)])
    ∧ purgeOne w base fUErr =
        (.error eU, [.statF (pathJoin base fUErr.relPath),
                     .unlinkF (pathJoin base fUErr.relPath)])
    ∧ (∀ (pre post : List IDeployedFile) (g : IDeployedFile) (e : JsError),
        (purgeOne w base g).1 = .error e →
        (∀ g' ∈ pre, (purgeOne w base g').1 = .ok ()) →
        (fallbackPurge w base (pre ++ g :: post)).1 = .error e)
    ∧ (∀ files : List IDeployedFile,
        (fallbackPurge w base files).2 =
          (files.map fun g => (purgeOne w base g).2).flatten) := by
  refine ⟨?_, ?_, ?_, ?_, ?_, ?_, fun files => rfl⟩
  · simp [purgeOne, hm1, hm2]
  · simp [purgeOne, he1, he2, he3]
  · simp [purgeOne, hn1, hn2]
  · simp [purgeOne, hs1, hs2]
  · simp [purgeOne, hu1, hu2, hu3, hu4]
  · intro pre post g e hg hpre
    show firstErr (((pre ++ g :: post).map fun f => (purgeOne w base f).1)) = .error e
    rw [List.map_append, List.map_cons, hg]
    exact firstErr_append_error _ _ _ fun x hx => by
      obtain ⟨g', hg', rfl⟩ := List.mem_map.mp hx
      exact hpre g' hg'

/-- Witness for C5 at a concrete world with one file per scenario, and
a concrete four-file purge failing with the stat `EACCES` while the
matching earlier file was still deleted and the later files still
processed. -/
theorem fallbackPurge_per_file_disposition_witness :
    purgeOne w5 "base" fM5 = (.ok (), [.statF "base/m"])
    ∧ purgeOne w5 "base" fEq5 = (.ok (), [.statF "base/a", .unlinkF "base/a"])
    ∧ purgeOne w5 "base" fNe5 = (.ok (), [.statF "base/b"])
    ∧ purgeOne w5 "base" fErr5 = (.error eaccesErr, [.statF "base/c"])
    ∧ purgeOne w5 "base" fUErr5 =
        (.error eaccesErr, [.statF "base/d", .unlinkF "base/d"])
    ∧ (fallbackPurge w5 "base" [fM5, fEq5, fErr5, fNe5]).1 = .error eaccesErr
    ∧ (fallbackPurge w5 "base" [fM5, fEq5, fErr5, fNe5]).2 =
        [.statF "base/m", .statF "base/a", .unlinkF "base/a",
         .statF "base/c", .statF "base/b"] := by
  have h := fallbackPurge_per_file_disposition w5 "base" fM5 fEq5 fNe5 fErr5 fUErr5
    { code := some "ENOENT", message := "no such file" } eaccesErr eaccesErr
    { mtime := 5 } { mtime := 9 } { mtime := 7 }
    (by decide) (by decide) (by decide) (by decide) (by decide) (by decide)
    (by decide) (by decide) (by decide) (by decide) (by decide) (by decide)
    (by decide)
  refine ⟨h.1, h.2.1, h.2.2.1, h.2.2.2.1, h.2.2.2.2.1, ?_, ?_⟩
  · exact h.2.2.2.2.2.1 [fM5, fEq5] [fNe5] fErr5 eaccesErr (by decide) (by decide)
  · rw [h.2.2.2.2.2.2 [fM5, fEq5, fErr5, fNe5]]
    decide

lemma loadManifestStage_ok_of (w : World) (tf instanceId : String) (d : FileData)
    (m : IDeploymentManifest) (hread : w.readResult = .ok d)
    (hman : readManifest d = .ok (some m)) :
    loadManifestStage w tf instanceId = .ok m := by
  simp only [loadManifestStage, hread, hman]

lemma loadManifestStage_enoent (w : World) (tf instanceId : String) (e : JsError)
    (hread : w.readResult = .error e) (hcode : e.code = some "ENOENT") :
    loadManifestStage w tf instanceId = .ok (emptyManifest instanceId) := by
  simp only [loadManifestStage, hread, hcode, if_pos]

lemma loadManifestStage_empty (w : World) (tf instanceId : String)
    (hread : w.readResult = .ok .emptyStr) :
    loadManifestStage w tf instanceId = .ok (emptyManifest instanceId) := by
  simp only [loadManifestStage, hread, readManifest]

lemma loadManifestStage_wrap (w : World) (tf instanceId : String) (e : JsError)
    (hread : w.readResult = .error e) (hcode : e.code ≠ some "ENOENT") :
    loadManifestStage w tf instanceId = .error (wrapReadError e tf) := by
  simp only [loadManifestStage, hread]
  rw [if_neg hcode]

lemma loadActivation_empty_stage (w : World) (modType : Option String)
    (mp : String) (activator : IDeploymentMethod) (instanceId : String)
    (hstage : loadManifestStage w (tagFileOf mp modType) instanceId =
      .ok (emptyManifest instanceId)) :
    loadActivation w modType (some mp) activator instanceId =
      (.ok [], [.fsRead (tagFileOf mp modType)]) := by
  simp only [loadActivation, hstage]
  rw [if_neg]
  · rfl
  · rintro ⟨h1, -⟩
    exact h1 rfl

lemma queryPurge_decline (w : World) (bp : String) (files : List IDeployedFile)
    (safe : Bool) (hdecline : w.dialogAction ≠ "Purge") :
    queryPurge w bp files safe = (.error .userCanceled, [.showDialog safe]) := by
  simp only [queryPurge]
  rw [if_neg hdecline]

lemma dialogsOf_append (a b : List Event) :
    dialogsOf (a ++ b) = dialogsOf a ++ dialogsOf b := by
  simp [dialogsOf, List.filterMap_append]

lemma purgeOne_dialogs (w : World) (bp : String) (f : IDeployedFile) :
    dialogsOf (purgeOne w bp f).2 = [] := by
  cases h : w.statResult (pathJoin bp f.relPath) with
  | error e => simp [purgeOne, h, dialogsOf]
  | ok s =>
      by_cases ht : s.mtime = f.time
      · cases hu : w.unlinkResult (pathJoin bp f.relPath) <;>
          simp [purgeOne, h, ht, hu, dialogsOf]
      · simp [purgeOne, h, ht, dialogsOf]

lemma fallbackPurge_dialogs (w : World) (bp : String)
    (files : List IDeployedFile) :
    dialogsOf (fallbackPurge w bp files).2 = [] := by
  induction files with
  | nil => simp [fallbackPurge, dialogsOf]
  | cons f t ih =>
      show dialogsOf ((purgeOne w bp f).2 ++
        ((t.map fun g => (purgeOne w bp g).2).flatten)) = []
      rw [dialogsOf_append, purgeOne_dialogs]
      exact ih

lemma queryPurge_dialogs (w : World) (bp : String) (files : List IDeployedFile)
    (safe : Bool) : dialogsOf (queryPurge w bp files safe).2 = [safe] := by
  unfold queryPurge
  by_cases hd : w.dialogAction = "Purge"
  · rw [if_pos hd]
    have hfd := fallbackPurge_dialogs w bp files
    cases hfp : fallbackPurge w bp files with
    | mk r ev =>
        rw [hfp] at hfd
        cases r <;>
          simp_all [dialogsOf, List.filterMap_append, List.filterMap_cons]
  · rw [if_neg hd]
    simp [dialogsOf]

lemma saveActivation_dialogs (w : World) (modType : Option String)
    (instanceId gamePath activatorId : String) :
    dialogsOf (saveActivation w modType instanceId gamePath [] activatorId).2 = [] := by
  rw [saveActivation_empty_deletes_absorbing_errors]
  simp [dialogsOf]

lemma dialogsOf_cons_fsRead (p : String) (tr : List Event) :
    dialogsOf (.fsRead p :: tr) = dialogsOf tr := by
  simp [dialogsOf]

lemma safeFlag_iff (w : World) (m : IDeploymentManifest) :
    safeFlag w m = true ↔
      ¬ ∃ dmid a, m.deploymentMethod = some dmid ∧
          w.getActivator dmid = some a ∧ a.isFallbackPurgeSafe = false := by
  unfold safeFlag
  cases hdm : m.deploymentMethod with
  | none => simp
  | some dmid =>
      cases ha : w.getActivator dmid with
      | none => simp [ha]
      | some a => cases hs : a.isFallbackPurgeSafe <;> simp [ha, hs]

lemma loadActivation_conflict_dialogs (w : World) (modType : Option String)
    (mp : String) (activator : IDeploymentMethod) (instanceId : String)
    (d : FileData) (m : IDeploymentManifest)
    (hread : w.readResult = .ok d) (hman : readManifest d = .ok (some m))
    (hinst : m.instance_ ≠ instanceId) (hfiles : m.files ≠ []) :
    dialogsOf (loadActivation w modType (some mp) activator instanceId).2 =
      [safeFlag w m] := by
  have hstage := loadManifestStage_ok_of w (tagFileOf mp modType) instanceId d m
    hread hman
  simp only [loadActivation, hstage]
  rw [if_pos ⟨hinst, List.length_pos.mpr hfiles⟩]
  have hqd := queryPurge_dialogs w mp m.files (safeFlag w m)
  cases hq : queryPurge w mp m.files (safeFlag w m) with
  | mk r qev =>
      rw [hq] at hqd
      cases r with
      | error e => simpa [dialogsOf_cons_fsRead] using hqd
      | ok u =>
          cases u
          rw [saveActivation_empty_deletes_absorbing_errors]
          show dialogsOf (.fsRead (tagFileOf mp modType) ::
            (qev ++ [.removeF (tagFileOf mp modType)])) = [safeFlag w m]
          rw [dialogsOf_cons_fsRead, dialogsOf_append, hqd]
          simp [dialogsOf]

/-- C4: for every loaded manifest whose instance differs from the
current instance id and whose files list is non-empty, the trace of
`loadActivation` contains exactly one dialog invocation; and when the
user declines, the result is the `UserCanceled` condition and the trace
is exactly the file read followed by the dialog — no manifest write or
delete and no deployed-file deletion occurred. -/
theorem loadActivation_decline_no_mutation (w : World) (modType : Option String)
    (mp : String) (activator : IDeploymentMethod) (instanceId : String)
    (d : FileData) (m : IDeploymentManifest)
    (hread : w.readResult = .ok d) (hman : readManifest d = .ok (some m))
    (hinst : m.instance_ ≠ instanceId) (hfiles : m.files ≠ []) :
    dialogsOf (loadActivation w modType (some mp) activator instanceId).2 =
      [safeFlag w m]
    ∧ (w.dialogAction ≠ "Purge" →
        loadActivation w modType (some mp) activator instanceId =
          (.error .userCanceled,
           [.fsRead (tagFileOf mp modType), .showDialog (safeFlag w m)])) := by
  refine ⟨loadActivation_conflict_dialogs w modType mp activator instanceId d m
    hread hman hinst hfiles, ?_⟩
  intro hdecline
  have hstage := loadManifestStage_ok_of w (tagFileOf mp modType) instanceId d m
    hread hman
  simp only [loadActivation, hstage]
  rw [if_pos ⟨hinst, List.length_pos.mpr hfiles⟩,
      queryPurge_decline w mp m.files (safeFlag w m) hdecline]

/-- Witness for C4 at a concrete world: a foreign-instance manifest with
one file, the user declining; exactly one dialog, result `UserCanceled`,
and the full trace holds only the read and the dialog. -/
theorem loadActivation_decline_no_mutation_witness :
    dialogsOf (loadActivation declineWorld none (some "game") act0 "me").2 = [true]
    ∧ loadActivation declineWorld none (some "game") act0 "me" =
        (.error .userCanceled,
         [.fsRead "game/vortex.deployment.json", .showDialog true]) := by
  have h := loadActivation_decline_no_mutation declineWorld none "game" act0 "me"
    (.json raw0) m0 rfl (by decide) (by decide) (by decide)
  have hsf : safeFlag declineWorld m0 = true := rfl
  have htf : tagFileOf "game" (none : Option String) = "game/vortex.deployment.json" := by
    decide
  constructor
  · rw [h.1, hsf]
  · have h2 := h.2 (by decide)
    rw [hsf, htf] at h2
    exact h2

/-- C1 counterexample: a loaded foreign-instance manifest with a
non-empty files list and an *absent* `deploymentMethod`; the claim says
the unsafe variant must be shown, but the single dialog invocation
carries the safe variant (`true`). -/
theorem loadActivation_prompt_counterexample :
    declineWorld.readResult = .ok (.json raw0)
    ∧ readManifest (.json raw0) = .ok (some m0)
    ∧ m0.deploymentMethod = none
    ∧ m0.instance_ ≠ "me"
    ∧ m0.files ≠ []
    ∧ (loadActivation declineWorld none (some "game") act0 "me").2 =
        [.fsRead "game/vortex.deployment.json", .showDialog true] := by
  refine ⟨rfl, by decide, rfl, by decide, by decide, by decide⟩

/-- C1 amended: in the foreign-instance conflict state the dialog shown
is the safe variant unless the manifest records a `deploymentMethod`,
the registry lookup of that id succeeds, and the looked-up method is
not marked fallback-purge-safe; an absent `deploymentMethod` or a
failed lookup therefore yields the *safe* variant, and the unsafe
variant appears exactly when the method is known and not
fallback-purge-safe. -/
theorem loadActivation_prompt_variant (w : World) (modType : Option String)
    (mp : String) (activator : IDeploymentMethod) (instanceId : String)
    (d : FileData) (m : IDeploymentManifest)
    (hread : w.readResult = .ok d) (hman : readManifest d = .ok (some m))
    (hinst : m.instance_ ≠ instanceId) (hfiles : m.files ≠ []) :
    dialogsOf (loadActivation w modType (some mp) activator instanceId).2 =
      [safeFlag w m]
    ∧ (safeFlag w m = true ↔
        ¬ ∃ dmid a, m.deploymentMethod = some dmid ∧
            w.getActivator dmid = some a ∧ a.isFallbackPurgeSafe = false) :=
  ⟨loadActivation_conflict_dialogs w modType mp activator instanceId d m
     hread hman hinst hfiles, safeFlag_iff w m⟩

/-- Witness for C1 amended at a concrete confirming world. -/
theorem loadActivation_prompt_variant_witness :
    dialogsOf (loadActivation purgeWorld none (some "game") act0 "me").2 =
      [safeFlag purgeWorld m0]
    ∧ safeFlag purgeWorld m0 = true := by
  refine ⟨(loadActivation_prompt_variant purgeWorld none "game" act0 "me"
    (.json raw0) m0 rfl (by decide) (by decide) (by decide)).1, rfl⟩

/-- C7: when the user confirms the purge in the foreign-instance
conflict path and the fallback purge succeeds, `loadActivation`
resolves to an empty file list, its trace being the read, the dialog,
the purge operations, and then exactly the effect of
`saveActivation(modType, instanceId, modPath, [], activator.id)` —
which, the file list being empty, removes the manifest file. -/
theorem loadActivation_confirm_purge_saves_empty (w : World)
    (modType : Option String) (mp : String) (activator : IDeploymentMethod)
    (instanceId : String) (d : FileData) (m : IDeploymentManifest)
    (hread : w.readResult = .ok d) (hman : readManifest d = .ok (some m))
    (hinst : m.instance_ ≠ instanceId) (hfiles : m.files ≠ [])
    (hconfirm : w.dialogAction = "Purge")
    (hpurge : (fallbackPurge w mp m.files).1 = .ok ()) :
    loadActivation w modType (some mp) activator instanceId =
      (.ok [], .fsRead (tagFileOf mp modType) :: .showDialog (safeFlag w m) ::
        ((fallbackPurge w mp m.files).2 ++ [.removeF (tagFileOf mp modType)]))
    ∧ saveActivation w modType instanceId mp [] activator.id =
        (.ok (), [.removeF (tagFileOf mp modType)]) := by
  refine ⟨?_, saveActivation_empty_deletes_absorbing_errors w modType instanceId
    mp activator.id⟩
  have hstage := loadManifestStage_ok_of w (tagFileOf mp modType) instanceId d m
    hread hman
  have hq : queryPurge w mp m.files (safeFlag w m) =
      (.ok (), .showDialog (safeFlag w m) :: (fallbackPurge w mp m.files).2) := by
    simp only [queryPurge]
    rw [if_pos hconfirm]
    cases hfp : fallbackPurge w mp m.files with
    | mk r ev =>
        rw [hfp] at hpurge
        simp only at hpurge
        subst hpurge
        rfl
  simp only [loadActivation, hstage]
  rw [if_pos ⟨hinst, List.length_pos.mpr hfiles⟩, hq,
      saveActivation_empty_deletes_absorbing_errors w modType instanceId mp
        activator.id]
  rfl

/-- Witness for C7: the user confirms, the single recorded file matches
its recorded time and is unlinked, and the manifest file is removed;
the call resolves to the empty list. -/
theorem loadActivation_confirm_purge_saves_empty_witness :
    loadActivation purgeWorld none (some "game") act0 "me" =
      (.ok [], [.fsRead "game/vortex.deployment.json", .showDialog true,
                .statF "game/f.esp", .unlinkF "game/f.esp",
                .removeF "game/vortex.deployment.json"]) := by
  have h := loadActivation_confirm_purge_saves_empty purgeWorld none "game" act0
    "me" (.json raw0) m0 rfl (by decide) (by decide) (by decide) rfl (by decide)
  rw [h.1]
  decide

/-- C9: an absent manifest file (`ENOENT` read) or an empty manifest
file (decode yields the no-manifest signal) makes `loadActivation`
proceed with a fresh empty manifest stamped with the current instance
id and resolve to an empty file list with no dialog; any other read
failure is propagated as an error whose message includes the manifest
file path. -/
theorem loadActivation_missing_manifest (w : World) (modType : Option String)
    (mp : String) (activator : IDeploymentMethod) (instanceId : String) :
    (∀ e : JsError, w.readResult = .error e → e.code = some "ENOENT" →
        loadActivation w modType (some mp) activator instanceId =
          (.ok [], [.fsRead (tagFileOf mp modType)]))
    ∧ (w.readResult = .ok .emptyStr →
        loadActivation w modType (some mp) activator instanceId =
          (.ok [], [.fsRead (tagFileOf mp modType)]))
    ∧ (∀ e : JsError, w.readResult = .error e → e.code ≠ some "ENOENT" →
        loadActivation w modType (some mp) activator instanceId =
          (.error (.err (wrapReadError e (tagFileOf mp modType))),
           [.fsRead (tagFileOf mp modType)])
        ∧ ∃ pre post, (wrapReadError e (tagFileOf mp modType)).message =
            pre ++ tagFileOf mp modType ++ post) := by
  refine ⟨?_, ?_, ?_⟩
  · intro e hread hcode
    exact loadActivation_empty_stage w modType mp activator instanceId
      (loadManifestStage_enoent w _ instanceId e hread hcode)
  · intro hread
    exact loadActivation_empty_stage w modType mp activator instanceId
      (loadManifestStage_empty w _ instanceId hread)
  · intro e hread hcode
    constructor
    · have hstage := loadManifestStage_wrap w (tagFileOf mp modType) instanceId e
        hread hcode
      simp only [loadActivation, hstage]
    · exact ⟨e.message ++ ".\n*** When you report this, please include the file \"",
        " ***\"", rfl⟩

/-- Witness for C9 at three concrete worlds: `ENOENT` read, empty file
content, and an `EACCES` read failure. -/
theorem loadActivation_missing_manifest_witness :
    loadActivation enoentWorld (some "plugins") (some "game") act0 "me" =
      (.ok [], [.fsRead (tagFileOf "game" (some "plugins"))])
    ∧ tagFileOf "game" (some "plugins") = "game/vortex.deployment.plugins.json"
    ∧ loadActivation emptyFileWorld none (some "game") act0 "me" =
      (.ok [], [.fsRead (tagFileOf "game" none)])
    ∧ loadActivation eaccesReadWorld none (some "game") act0 "me" =
      (.error (.err (wrapReadError eaccesErr (tagFileOf "game" none))),
       [.fsRead (tagFileOf "game" none)])
    ∧ ∃ pre post, (wrapReadError eaccesErr (tagFileOf "game" none)).message =
        pre ++ tagFileOf "game" none ++ post := by
  refine ⟨?_, by decide, ?_, ?_, ?_⟩
  · exact (loadActivation_missing_manifest enoentWorld (some "plugins") "game"
      act0 "me").1 { code := some "ENOENT", message := "no such file" } rfl rfl
  · exact (loadActivation_missing_manifest emptyFileWorld none "game" act0
      "me").2.1 rfl
  · exact ((loadActivation_missing_manifest eaccesReadWorld none "game" act0
      "me").2.2 eaccesErr rfl (by decide)).1
  · exact ((loadActivation_missing_manifest eaccesReadWorld none "game" act0
      "me").2.2 eaccesErr rfl (by decide)).2

end Vortex
